import Mathlib

set_option maxHeartbeats 1000000
set_option linter.unusedVariables false

namespace ExpenseTracker

/-!
Verification of the expense-tracker data-access layer (src/backend/models.py)
and its route layer (src/backend/app.py) against the natural-language
specification.  The Python code is shallowly embedded: the MySQL tables
become lists of rows, the Flask session becomes an explicit value, a raised
database exception becomes a boolean failure flag threaded through each
operation (the operations catch it exactly where the Python code has
try/except), and the DECIMAL(10,2) column type of the amount column becomes
rounding of rationals to two decimal places.  The Decimal-to-binary-float
conversion performed by safe_float at the query boundary is modelled by an
explicit conversion function parameter.
-/

/-! ### Model of werkzeug password hashing

werkzeug.security is a library outside this repository.  Its
generate_password_hash produces a "method$salt$digest" string where the
digest is a one-way function of salt and password, and check_password_hash
re-derives the digest from the stored salt and the candidate password.  We
model the stored string as a structured value and the digest as an injective
encoding of the password shifted by the salt (the usual idealisation of a
collision-free hash). -/

/-- Base for the character-list encoding; strictly larger than any
character code (characters are below 2 ^ 21), so every digit is
strictly below the base. -/
def charBase : Nat := 2097152

/-- Positional encoding of a list of characters, little-endian, with digits
c.toNat + 1 so that no list shares a code with a proper prefix. -/
def charListCode : List Char → Nat
  | [] => 0
  | c :: cs => (c.toNat + 1) + charBase * charListCode cs

/-- Injective code of a string, used as the modelled password digest. -/
def strCode (s : String) : Nat := charListCode s.data

/-- Modelled werkzeug password hash value: the "method$salt$digest" string
stored in the password column, as a structured value. -/
structure PwHash where
  method : String
  salt : Nat
  digest : Nat
deriving DecidableEq, Repr

/-- Modelled from the spec: werkzeug.security.generate_password_hash
(library code, not part of src/).  The spec requires that registration
"stores a salted hash, never plaintext": the output is a salted digest
value, of a different type from the plaintext string, whose digest depends
on both the salt and the password. -/
def generate_password_hash (salt : Nat) (password : String) : PwHash :=
  ⟨"scrypt:32768:8:1", salt, strCode password + salt⟩

/-- Modelled from the spec: werkzeug.security.check_password_hash re-derives
the digest from the salt stored in the hash and compares. -/
def check_password_hash (stored : PwHash) (password : String) : Bool :=
  stored.digest == strCode password + stored.salt

/-! ### DECIMAL(10,2) rounding

The amount column is DECIMAL(10,2) (init_db.py).  MySQL converts an
incoming double to this type by rounding half away from zero at the second
decimal place. -/

/-- Round a rational to the nearest integer, half away from zero. -/
def roundHalfAwayZ (x : ℚ) : ℤ :=
  if 0 ≤ x then ⌊x + 1/2⌋ else ⌈x - 1/2⌉

/-- Conversion of a value to the DECIMAL(10,2) column type: round to the
nearest multiple of 1/100. -/
def decRound2 (x : ℚ) : ℚ := (roundHalfAwayZ (x * 100) : ℚ) / 100

/-! ### ORDER BY ... DESC

Sorting used to model the ORDER BY clauses (descending by a key). -/

def insertDesc {α β : Type} [LinearOrder β] (key : α → β) (a : α) : List α → List α
  | [] => [a]
  | b :: bs => if key b ≤ key a then a :: b :: bs else b :: insertDesc key a bs

def sortByDesc {α β : Type} [LinearOrder β] (key : α → β) : List α → List α
  | [] => []
  | a :: as => insertDesc key a (sortByDesc key as)

/-! ### Data model

Rows of the three tables (init_db.py plus the user_id owner column that the
fixed expense model relies on; spec section 6 lists the schema as
users(id, username, email, password), categories(id, name, description),
expenses(id, user_id, title, category_id, amount, description,
expense_date)).  Dates are modelled as day numbers: the only operations the
code performs on them are equality, BETWEEN comparisons and descending
ORDER BY. -/

structure UserRow where
  id : Nat
  username : String
  email : String
  password : PwHash
deriving DecidableEq, Repr

structure CategoryRow where
  id : Nat
  name : String
  descr : String
deriving DecidableEq, Repr

structure ExpenseRow where
  id : Nat
  userId : Nat
  title : String
  categoryId : Option Nat
  amount : ℚ
  descr : String
  expenseDate : Nat
deriving DecidableEq, Repr

/-- The database state: the three tables plus the AUTO_INCREMENT counters
that produce cursor.lastrowid. -/
structure DB where
  users : List UserRow
  categories : List CategoryRow
  expenses : List ExpenseRow
  nextUserId : Nat
  nextExpenseId : Nat
deriving DecidableEq, Repr

/-- ExpenseModel._get_current_user_id reads session.get('user_id', None),
and every operation then guards with `if not current_user_id`, which
rejects both a missing key and a zero id (Python falsiness).  The result is
the user id the operation is scoped to, or none. -/
def sessionUid (sess : Option Nat) : Option Nat :=
  match sess with
  | none => none
  | some uid => if uid = 0 then none else some uid

/-! ### UserModel -/

/-- UserModel.register_user: checks COUNT(*) of rows with the given email
and raises if positive; otherwise hashes the password and inserts
(username, email, password), returning cursor.lastrowid.  Any database
exception is caught, rolled back, and re-raised (modelled by the `fail`
flag and the Except error result).  The salt argument models the random
salt that werkzeug draws when hashing. -/
def register_user (fail : Bool) (salt : Nat) (name email password : String)
    (db : DB) : Except String Nat × DB :=
  if fail then (Except.error "db error", db)
  else if db.users.any (fun u => u.email == email) then
    (Except.error ("User with email " ++ email ++ " already exists!"), db)
  else
    let uid := db.nextUserId
    let row : UserRow := ⟨uid, name, email, generate_password_hash salt password⟩
    (Except.ok uid,
      { db with users := db.users ++ [row], nextUserId := uid + 1 })

/-- UserModel.get_user_by_email: SELECT * FROM users WHERE email = %s, first
row or None; an exception is caught and surfaced as None. -/
def get_user_by_email (fail : Bool) (email : String) (db : DB) : Option UserRow :=
  if fail then none
  else db.users.find? (fun u => u.email == email)

/-- UserModel.validate_login: look the user up by email, then verify the
candidate password against the stored hash; None both when the email is
unknown and when the password does not match. -/
def validate_login (fail : Bool) (email password : String) (db : DB) : Option UserRow :=
  match get_user_by_email fail email db with
  | some u => if check_password_hash u.password password then some u else none
  | none => none

/-! ### ExpenseModel

The table-structure probe of models.py finds the columns of the expenses
table; with the declared schema it reports has_title = has_description =
true and date column expense_date, so the branches below are the ones the
code takes.  A row returned by a SELECT is rendered as an ExpenseView; the
safe_float conversion of the Decimal amount at the query boundary is the
`fl` parameter (the identity on the mathematical value up to binary64
rounding). -/

structure ExpenseView where
  id : Nat
  amount : ℚ
  expenseDate : Nat
  title : String
  descr : String
  categoryName : Option String
  categoryId : Option Nat
deriving DecidableEq, Repr

/-- The LEFT JOIN categories c ON e.category_id = c.id lookup: the joined
category row, if any. -/
def joinedCategory (db : DB) (cid : Option Nat) : Option CategoryRow :=
  match cid with
  | none => none
  | some c => db.categories.find? (fun k => k.id == c)

/-- Row rendering used by get_all_expenses and get_expenses_by_date_range:
e.id, e.amount, e.expense_date, e.title, e.description plus c.name and c.id
from the join. -/
def joinedView (db : DB) (e : ExpenseRow) : ExpenseView :=
  { id := e.id, amount := e.amount, expenseDate := e.expenseDate,
    title := e.title, descr := e.descr,
    categoryName := (joinedCategory db e.categoryId).map (fun c => c.name),
    categoryId := (joinedCategory db e.categoryId).map (fun c => c.id) }

/-- Row rendering used by get_expense_by_id: as joinedView but category_id
is selected from the expense row itself. -/
def byIdView (db : DB) (e : ExpenseRow) : ExpenseView :=
  { id := e.id, amount := e.amount, expenseDate := e.expenseDate,
    title := e.title, descr := e.descr,
    categoryName := (joinedCategory db e.categoryId).map (fun c => c.name),
    categoryId := e.categoryId }

/-- safe_float applied to the amount of a fetched row. -/
def flView (fl : ℚ → ℚ) (v : ExpenseView) : ExpenseView :=
  { v with amount := fl v.amount }

/-- The `if limit:` clause of get_all_expenses: LIMIT is appended only for
a truthy (non-None, non-zero) limit. -/
def applyLimit {α : Type} (limit : Option Nat) (l : List α) : List α :=
  match limit with
  | none => l
  | some n => if n = 0 then l else l.take n

/-- ExpenseModel.add_expense: after the structure probe, returns None when
no user is logged in, otherwise inserts (user_id, title, category_id,
amount, description, expense_date) and returns cursor.lastrowid.  The
amount arrives as a Python float and the DECIMAL(10,2) column rounds it to
two decimal places.  A database exception rolls back and returns None. -/
def add_expense (fail : Bool) (sess : Option Nat) (title : String) (amount : ℚ)
    (categoryId : Option Nat) (descr : String) (expenseDate : Nat)
    (db : DB) : Option Nat × DB :=
  match sessionUid sess with
  | none => (none, db)
  | some uid =>
    if fail then (none, db)
    else
      let eid := db.nextExpenseId
      let row : ExpenseRow :=
        ⟨eid, uid, title, categoryId, decRound2 amount, descr, expenseDate⟩
      (some eid,
        { db with expenses := db.expenses ++ [row], nextExpenseId := eid + 1 })

/-- ExpenseModel.get_all_expenses: SELECT ... WHERE e.user_id = %s ORDER BY
e.expense_date DESC [LIMIT n]; empty when no user is logged in or on a
database exception. -/
def get_all_expenses (fl : ℚ → ℚ) (fail : Bool) (sess : Option Nat)
    (limit : Option Nat) (db : DB) : List ExpenseView :=
  match sessionUid sess with
  | none => []
  | some uid =>
    if fail then []
    else
      applyLimit limit
        (sortByDesc (fun v => v.expenseDate)
          ((db.expenses.filter (fun e => e.userId == uid)).map
            (fun e => flView fl (joinedView db e))))

/-- ExpenseModel.get_expense_by_id: SELECT ... WHERE e.id = %s AND
e.user_id = %s, first row or None. -/
def get_expense_by_id (fl : ℚ → ℚ) (fail : Bool) (sess : Option Nat)
    (eid : Nat) (db : DB) : Option ExpenseView :=
  match sessionUid sess with
  | none => none
  | some uid =>
    if fail then none
    else
      (db.expenses.find? (fun e => e.id == eid && e.userId == uid)).map
        (fun e => flView fl (byIdView db e))

/-- ExpenseModel.update_expense: UPDATE ... WHERE id = %s AND user_id = %s;
the result is cursor.rowcount > 0, where pymysql reports the number of rows
the UPDATE actually changed.  False when no user is logged in or on a
database exception. -/
def update_expense (fail : Bool) (sess : Option Nat) (eid : Nat)
    (title : String) (amount : ℚ) (categoryId : Option Nat) (descr : String)
    (expenseDate : Nat) (db : DB) : Bool × DB :=
  match sessionUid sess with
  | none => (false, db)
  | some uid =>
    if fail then (false, db)
    else
      let upd : ExpenseRow → ExpenseRow := fun e =>
        if e.id == eid && e.userId == uid then
          { e with title := title, amount := decRound2 amount,
                   categoryId := categoryId, descr := descr,
                   expenseDate := expenseDate }
        else e
      let changed := db.expenses.filter (fun e => upd e != e)
      (decide (0 < changed.length),
        { db with expenses := db.expenses.map upd })

/-- ExpenseModel.delete_expense: DELETE FROM expenses WHERE id = %s AND
user_id = %s; the result is cursor.rowcount > 0 (rows deleted). -/
def delete_expense (fail : Bool) (sess : Option Nat) (eid : Nat)
    (db : DB) : Bool × DB :=
  match sessionUid sess with
  | none => (false, db)
  | some uid =>
    if fail then (false, db)
    else
      let remaining := db.expenses.filter
        (fun e => !(e.id == eid && e.userId == uid))
      (decide (remaining.length < db.expenses.length),
        { db with expenses := remaining })

/-- ExpenseModel.get_expenses_by_date_range: SELECT ... WHERE
e.expense_date BETWEEN %s AND %s AND e.user_id = %s ORDER BY
e.expense_date DESC. -/
def get_expenses_by_date_range (fl : ℚ → ℚ) (fail : Bool) (sess : Option Nat)
    (startDate endDate : Nat) (db : DB) : List ExpenseView :=
  match sessionUid sess with
  | none => []
  | some uid =>
    if fail then []
    else
      sortByDesc (fun v => v.expenseDate)
        ((db.expenses.filter (fun e =>
            (decide (startDate ≤ e.expenseDate) &&
             decide (e.expenseDate ≤ endDate)) && e.userId == uid)).map
          (fun e => flView fl (joinedView db e)))

/-- ExpenseModel.get_total_expense: SELECT COALESCE(SUM(amount), 0) with
the BETWEEN filter added only when start_date and end_date are both truthy
(`if start_date and end_date`); the fetched Decimal total is converted with
safe_float unless it is falsy (zero), in which case 0.0 is returned. -/
def get_total_expense (fl : ℚ → ℚ) (fail : Bool) (sess : Option Nat)
    (startDate endDate : Option Nat) (db : DB) : ℚ :=
  match sessionUid sess with
  | none => 0
  | some uid =>
    if fail then 0
    else
      let rows : List ExpenseRow :=
        match startDate, endDate with
        | some s, some e =>
          db.expenses.filter (fun x =>
            (decide (s ≤ x.expenseDate) && decide (x.expenseDate ≤ e)) &&
            x.userId == uid)
        | _, _ => db.expenses.filter (fun x => x.userId == uid)
      let total := (rows.map (fun x => x.amount)).sum
      if total = 0 then 0 else fl total

/-- One row of the get_expenses_by_category result: c.name,
COALESCE(SUM(e.amount), 0) and COUNT(e.id) for the LEFT JOIN group of one
category. -/
structure CategoryTotal where
  categoryName : String
  totalAmount : ℚ
  count : Nat
deriving DecidableEq, Repr

/-- ExpenseModel.get_expenses_by_category: for each category, the total and
count of the session user's expenses joined on category_id (all-time; the
query has no date parameters), keeping only groups with HAVING
total_amount > 0 and sorting by total descending. -/
def get_expenses_by_category (fl : ℚ → ℚ) (fail : Bool) (sess : Option Nat)
    (db : DB) : List CategoryTotal :=
  match sessionUid sess with
  | none => []
  | some uid =>
    if fail then []
    else
      let groups := db.categories.map (fun c =>
        let es := db.expenses.filter (fun e =>
          e.categoryId == some c.id && e.userId == uid)
        CategoryTotal.mk c.name ((es.map (fun e => e.amount)).sum) es.length)
      (sortByDesc (fun g => g.totalAmount)
          (groups.filter (fun g => decide (0 < g.totalAmount)))).map
        (fun g => { g with totalAmount := fl g.totalAmount })

/-! ### CategoryModel -/

/-- CategoryModel.get_all_categories: SELECT * FROM categories ORDER BY
name; empty on a database exception. -/
def get_all_categories (fail : Bool) (db : DB) : List CategoryRow :=
  if fail then []
  else List.mergeSort db.categories (fun a b => a.name ≤ b.name)

/-- CategoryModel.add_category: INSERT INTO categories (name, description),
returning cursor.lastrowid; None on a database exception.  The model keeps
a synthetic id counter derived from the list length. -/
def add_category (fail : Bool) (name descr : String) (db : DB) :
    Option Nat × DB :=
  if fail then (none, db)
  else
    let cid := db.categories.length + 1
    (some cid, { db with categories := db.categories ++ [⟨cid, name, descr⟩] })

/-! ### Route layer (src/backend/app.py)

The Flask session is modelled explicitly; a flash message is a
(text, category) pair attached to the response. -/

structure SessionData where
  userId : Option Nat
  userName : Option String
  userEmail : Option String
deriving DecidableEq, Repr

def emptySession : SessionData := ⟨none, none, none⟩

/-- The display name stored in the session at login:
user.get('username') or user.get('name') or user['email']. -/
def displayName (u : UserRow) : String :=
  if u.username = "" then u.email else u.username

inductive LoginResult
  | redirectIndexAlready
  | loginPage (flash : String × String) (sess : SessionData)
  | redirectIndex (flash : String × String) (sess : SessionData)
deriving DecidableEq, Repr

/-- POST /login: redirect if already logged in; reject empty fields;
otherwise validate_login.  Success clears the session, stores user id,
display name and email, and redirects with a welcome flash; failure keeps
the session and flashes the one generic message, whichever credential was
wrong. -/
def loginRoute (fail : Bool) (db : DB) (sess : SessionData)
    (email password : String) : LoginResult :=
  if sess.userId.isSome then .redirectIndexAlready
  else if email = "" || password = "" then
    .loginPage ("Email and password are required!", "danger") sess
  else
    match validate_login fail email password db with
    | some u =>
      .redirectIndex ("Welcome back, " ++ displayName u ++ "!", "success")
        ⟨some u.id, some (displayName u), some u.email⟩
    | none => .loginPage ("Invalid email or password!", "danger") sess

inductive RegisterResult
  | redirectIndexAlready
  | registerPage (flash : Option (String × String))
  | redirectLogin (flash : String × String)
deriving DecidableEq, Repr

/-- POST /register: redirect if logged in; validate fields and password
length; call register_user, turning a raised data-layer error into the
flash ('Error: ...', 'danger') on the re-rendered page, a falsy id into
'Registration failed!', and success into a redirect to login. -/
def registerRoute (fail : Bool) (salt : Nat) (sess : SessionData)
    (name email password : String) (db : DB) : RegisterResult × DB :=
  if sess.userId.isSome then (.redirectIndexAlready, db)
  else if name = "" || email = "" || password = "" then
    (.registerPage (some ("All fields are required!", "danger")), db)
  else if password.length < 6 then
    (.registerPage (some ("Password must be at least 6 characters long!", "danger")), db)
  else
    match register_user fail salt name email password db with
    | (Except.ok uid, db') =>
      if uid = 0 then (.registerPage (some ("Registration failed!", "danger")), db')
      else (.redirectLogin ("Registration successful! Please log in.", "success"), db')
    | (Except.error e, db') =>
      (.registerPage (some ("Error: " ++ e, "danger")), db')

inductive AddExpenseResult
  | addPage (flash : Option (String × String))
  | redirectIndex (flash : String × String)
deriving DecidableEq, Repr

/-- POST /add_expense (behind login_required): reject missing required
fields, then call add_expense; a falsy result (including the None produced
by a caught data-layer exception) flashes the error message on the
re-rendered form, success redirects to the dashboard. -/
def addExpenseRoute (fail : Bool) (sess : Option Nat) (title : String)
    (amount : ℚ) (categoryId : Option Nat) (descr : String)
    (expenseDate : Nat) (db : DB) : AddExpenseResult × DB :=
  if title = "" then
    (.addPage (some ("Title, amount, category, and date are required!", "danger")), db)
  else
    match add_expense fail sess title amount categoryId descr expenseDate db with
    | (some eid, db') =>
      if eid = 0 then
        (.addPage (some ("Error adding expense. Please try again.", "danger")), db')
      else (.redirectIndex ("Expense added successfully!", "success"), db')
    | (none, db') =>
      (.addPage (some ("Error adding expense. Please try again.", "danger")), db')

structure StatsPayload where
  userId : Nat
  totalExpense : ℚ
  monthlyExpense : ℚ
  categoryExpenses : List CategoryTotal
deriving DecidableEq, Repr

inductive ApiResult
  | ok (stats : StatsPayload)
  | err (msg : String)
deriving DecidableEq, Repr

/-- GET /api/stats (behind login_required): assembles all-time total,
current-month total and per-category totals; its try/except would produce
the err JSON (status 500), but the data-layer calls already swallow their
own failures, so the route always answers with the ok payload. -/
def apiStatsRoute (fl : ℚ → ℚ) (fail : Bool) (uid : Nat)
    (monthStart monthEnd : Nat) (db : DB) : ApiResult :=
  .ok ⟨uid,
       get_total_expense fl fail (some uid) none none db,
       get_total_expense fl fail (some uid) (some monthStart) (some monthEnd) db,
       get_expenses_by_category fl fail (some uid) db⟩

/-! ### Connection lifecycle (claim about resource release)

Every data-access method follows the pattern
connection = None; try: connection = get_connection(); ... finally:
if connection: connection.close().  The trace of connection events of one
such block: nothing if get_connection itself raises (connection stays
None), otherwise an acquire followed by a release from the finally clause,
whatever the body did. -/

inductive ConnEvent
  | acquire
  | release
deriving DecidableEq, Repr

/-- Trace of one try/finally block: `connectOk` is whether get_connection
succeeded, `bodyFails` whether the statements inside raised; the finally
clause releases whenever the connection was acquired, so the body outcome
does not affect the trace. -/
def connBlock (connectOk : Bool) (bodyFails : Bool) : List ConnEvent :=
  if connectOk then [ConnEvent.acquire, ConnEvent.release] else []

/-- Trace of ExpenseModel._get_table_structure: its own guarded block,
probed before the session check of the expense operations (skipped when the
structure is already cached). -/
def structProbeTrace (cached connectOk bodyFails : Bool) : List ConnEvent :=
  if cached then [] else connBlock connectOk bodyFails

/-- Trace of UserModel.register_user, get_user_by_email,
CategoryModel.get_all_categories and add_category, and
ExpenseModel.delete_expense (for a logged-in user): a single block. -/
def singleBlockTrace (connectOk bodyFails : Bool) : List ConnEvent :=
  connBlock connectOk bodyFails

/-- Trace of the expense operations that probe the table structure first
(add, get_all, get_by_id, update, date range, totals): the probe block,
then, only when a user is logged in, the main block. -/
def expenseOpTrace (cached probeConnectOk probeBodyFails userOk connectOk
    bodyFails : Bool) : List ConnEvent :=
  structProbeTrace cached probeConnectOk probeBodyFails ++
    (if userOk then connBlock connectOk bodyFails else [])

/-- Trace of ExpenseModel.delete_expense and get_expenses_by_category: the
session check comes first, then a single block. -/
def userGuardedTrace (userOk connectOk bodyFails : Bool) : List ConnEvent :=
  if userOk then connBlock connectOk bodyFails else []

/-! ### Databases used by concrete witness instances -/

/-- C1 witness: a two-user database where user 1 owns expense 1; user 2
sees none of it through any of the three read operations. -/
def dbC1 : DB :=
  ⟨[], [⟨1, "Food", ""⟩],
   [⟨1, 1, "Lunch", some 1, 5, "", 10⟩, ⟨2, 2, "Bus", some 1, 3, "", 11⟩],
   3, 3⟩

/-- C2 witness: amount 12.50 added to a fresh database by user 1 is stored
as the exact decimal 1250/100 and read back as exactly 12.50 (with the
identity as the binary conversion, which is exact on this value). -/
def dbC2 : DB := ⟨[], [], [], 1, 1⟩

def dbC5 : DB :=
  ⟨[⟨1, "Alice", "a@b.com", generate_password_hash 3 "alicepw1"⟩], [], [], 2, 1⟩

def dbC6 : DB :=
  ⟨[⟨1, "alice", "a@b.com", generate_password_hash 5 "hunter22"⟩], [], [], 2, 1⟩

def dbC7 : DB :=
  ⟨[], [⟨1, "Food", ""⟩], [⟨1, 1, "Lunch", some 1, 5, "", 15⟩], 2, 2⟩

def dbC3 : DB :=
  ⟨[], [⟨1, "Food", ""⟩], [⟨1, 1, "Lunch", some 1, 5, "", 10⟩], 2, 2⟩

/-! ### Lemmas and claim theorems -/

theorem char_toNat_lt_charBase (c : Char) : c.toNat < charBase := by
  have h := c.valid
  rcases h with h | h
  · exact Nat.lt_trans (by exact_mod_cast h) (by norm_num [charBase])
  · calc c.toNat < 1114112 := by exact_mod_cast h.2
      _ < charBase := by norm_num [charBase]

theorem charListCode_injective :
    ∀ l₁ l₂ : List Char, charListCode l₁ = charListCode l₂ → l₁ = l₂ := by
  intro l₁
  induction l₁ with
  | nil =>
    intro l₂ h
    cases l₂ with
    | nil => rfl
    | cons d ds =>
      exfalso
      simp only [charListCode] at h
      omega
  | cons c cs ih =>
    intro l₂ h
    cases l₂ with
    | nil =>
      exfalso
      simp only [charListCode] at h
      omega
    | cons d ds =>
      simp only [charListCode] at h
      have hc : c.toNat < charBase := char_toNat_lt_charBase c
      have hd : d.toNat < charBase := char_toNat_lt_charBase d
      have hB : charBase = 2097152 := rfl
      rw [hB] at h hc hd
      have hdig : c.toNat = d.toNat ∧
          charListCode cs = charListCode ds := by omega
      have hcd : c = d := by
        have hco := congrArg Char.ofNat hdig.1
        rwa [Char.ofNat_toNat, Char.ofNat_toNat] at hco
      have := ih ds hdig.2
      rw [hcd, this]

theorem strCode_injective (s t : String) (h : strCode s = strCode t) : s = t :=
  String.ext (charListCode_injective _ _ h)

theorem check_password_hash_correct (salt : Nat) (pw : String) :
    check_password_hash (generate_password_hash salt pw) pw = true := by
  simp [check_password_hash, generate_password_hash]

theorem check_password_hash_wrong (salt : Nat) (pw pw' : String) (h : pw' ≠ pw) :
    check_password_hash (generate_password_hash salt pw) pw' = false := by
  simp only [check_password_hash, generate_password_hash]
  rw [beq_eq_false_iff_ne]
  intro hc
  have hne : strCode pw' = strCode pw := by omega
  exact h (strCode_injective _ _ hne)

theorem generate_password_hash_salted (s₁ s₂ : Nat) (pw : String) (h : s₁ ≠ s₂) :
    generate_password_hash s₁ pw ≠ generate_password_hash s₂ pw := by
  simp only [generate_password_hash, ne_eq, PwHash.mk.injEq]
  intro hc
  exact h hc.2.1

theorem roundHalfAwayZ_eq (k : ℤ) (y : ℚ) (h : |y - (k : ℚ)| < 1/2) :
    roundHalfAwayZ y = k := by
  rw [abs_lt] at h
  unfold roundHalfAwayZ
  by_cases hy : 0 ≤ y
  · simp only [hy, if_true]
    rw [Int.floor_eq_iff]
    constructor
    · linarith [h.1]
    · linarith [h.2]
  · simp only [hy, if_false]
    rw [Int.ceil_eq_iff]
    constructor
    · linarith [h.2]
    · linarith [h.1]

theorem decRound2_exact (k : ℤ) (x : ℚ) (h : |x - (k : ℚ)/100| < 1/200) :
    decRound2 x = (k : ℚ)/100 := by
  unfold decRound2
  have h100 : |x * 100 - (k : ℚ)| < 1/2 := by
    have : x * 100 - (k : ℚ) = (x - (k : ℚ)/100) * 100 := by ring
    rw [this, abs_mul]
    have : |(100 : ℚ)| = 100 := by norm_num
    rw [this]
    linarith [h]
  rw [roundHalfAwayZ_eq k _ h100]

theorem insertDesc_perm {α β : Type} [LinearOrder β] (key : α → β) (a : α) :
    ∀ l : List α, (insertDesc key a l).Perm (a :: l) := by
  intro l
  induction l with
  | nil => simp [insertDesc]
  | cons b bs ih =>
    simp only [insertDesc]
    by_cases h : key b ≤ key a
    · simp [h]
    · simp only [h, if_false]
      exact (ih.cons b).trans (List.Perm.swap a b bs)

theorem sortByDesc_perm {α β : Type} [LinearOrder β] (key : α → β) :
    ∀ l : List α, (sortByDesc key l).Perm l := by
  intro l
  induction l with
  | nil => simp [sortByDesc]
  | cons a as ih =>
    simp only [sortByDesc]
    exact (insertDesc_perm key a _).trans (ih.cons a)

theorem mem_sortByDesc {α β : Type} [LinearOrder β] (key : α → β)
    (l : List α) (x : α) : x ∈ sortByDesc key l ↔ x ∈ l :=
  (sortByDesc_perm key l).mem_iff

@[simp] theorem flView_id (fl : ℚ → ℚ) (v : ExpenseView) :
    (flView fl v).id = v.id := rfl

@[simp] theorem joinedView_id (db : DB) (e : ExpenseRow) :
    (joinedView db e).id = e.id := rfl

@[simp] theorem byIdView_id (db : DB) (e : ExpenseRow) :
    (byIdView db e).id = e.id := rfl

theorem sessionUid_some {B uid : Nat} (h : sessionUid (some B) = some uid) :
    uid = B := by
  unfold sessionUid at h
  by_cases h0 : B = 0
  · simp [h0] at h
  · simp [h0] at h
    exact h.symm

theorem sessionUid_some_of_ne {B : Nat} (h : B ≠ 0) :
    sessionUid (some B) = some B := by
  simp [sessionUid, h]

theorem applyLimit_subset {α : Type} (limit : Option Nat) (l : List α) :
    applyLimit limit l ⊆ l := by
  unfold applyLimit
  cases limit with
  | none => exact fun a h => h
  | some n =>
    by_cases hn : n = 0
    · simp [hn]
    · simp only [hn, if_false]
      exact List.take_subset n l

theorem find?_append_left_none {α : Type} (p : α → Bool) (l₁ l₂ : List α)
    (h : ∀ a ∈ l₁, p a = false) : (l₁ ++ l₂).find? p = l₂.find? p := by
  induction l₁ with
  | nil => rfl
  | cons a as ih =>
    have ha := h a (List.mem_cons_self a as)
    simp only [List.cons_append, List.find?_cons, ha]
    exact ih (fun x hx => h x (List.mem_cons_of_mem a hx))

/-- Every row returned by get_all_expenses originates in an expense of the
session user. -/
theorem mem_get_all_expenses {fl : ℚ → ℚ} {fail : Bool} {sess : Option Nat}
    {limit : Option Nat} {db : DB} {v : ExpenseView}
    (hv : v ∈ get_all_expenses fl fail sess limit db) :
    ∃ uid e, sessionUid sess = some uid ∧ e ∈ db.expenses ∧
      e.userId = uid ∧ v.id = e.id := by
  unfold get_all_expenses at hv
  rcases h : sessionUid sess with _ | uid
  · rw [h] at hv
    simp at hv
  · rw [h] at hv
    by_cases hf : fail
    · simp [hf] at hv
    · simp only [hf, if_false] at hv
      have hv' := applyLimit_subset limit _ hv
      rw [mem_sortByDesc] at hv'
      rcases List.mem_map.mp hv' with ⟨e, he, hve⟩
      rcases List.mem_filter.mp he with ⟨hemem, heu⟩
      exact ⟨uid, e, rfl, hemem, by simpa using heu, by rw [← hve]; rfl⟩

/-- Every row returned by get_expenses_by_date_range originates in an
expense of the session user. -/
theorem mem_get_expenses_by_date_range {fl : ℚ → ℚ} {fail : Bool}
    {sess : Option Nat} {sd ed : Nat} {db : DB} {v : ExpenseView}
    (hv : v ∈ get_expenses_by_date_range fl fail sess sd ed db) :
    ∃ uid e, sessionUid sess = some uid ∧ e ∈ db.expenses ∧
      e.userId = uid ∧ v.id = e.id := by
  unfold get_expenses_by_date_range at hv
  rcases h : sessionUid sess with _ | uid
  · rw [h] at hv
    simp at hv
  · rw [h] at hv
    by_cases hf : fail
    · simp [hf] at hv
    · simp only [hf, Bool.false_eq_true, if_false] at hv
      rw [mem_sortByDesc] at hv
      rcases List.mem_map.mp hv with ⟨e, he, hve⟩
      rcases List.mem_filter.mp he with ⟨hemem, heu⟩
      have heu' : e.userId = uid := by
        simp only [Bool.and_eq_true, beq_iff_eq] at heu
        exact heu.2
      exact ⟨uid, e, rfl, hemem, heu', by rw [← hve]; rfl⟩

/-- C1: expense reads are scoped to the session user.  If the expense ids
in the table are distinct (they are values of an AUTO_INCREMENT primary
key) and an expense belongs to user A, then a session whose user id is a
different B never sees it: it is absent from get_all_expenses (any limit),
get_expense_by_id answers None for its id, and it is absent from any
get_expenses_by_date_range result. -/
theorem c1_user_scoping (fl : ℚ → ℚ) (fail : Bool) (limit : Option Nat)
    (sd ed : Nat) (A B : Nat) (db : DB) (e : ExpenseRow)
    (he : e ∈ db.expenses) (hA : e.userId = A) (hAB : A ≠ B)
    (hids : (db.expenses.map ExpenseRow.id).Nodup) :
    (∀ v ∈ get_all_expenses fl fail (some B) limit db, v.id ≠ e.id) ∧
    get_expense_by_id fl fail (some B) e.id db = none ∧
    (∀ v ∈ get_expenses_by_date_range fl fail (some B) sd ed db, v.id ≠ e.id) := by
  refine ⟨?_, ?_, ?_⟩
  · intro v hv hvid
    rcases mem_get_all_expenses hv with ⟨uid, e', hsess, he', hu', hid'⟩
    have huB : uid = B := sessionUid_some hsess
    have hee : e' = e :=
      List.inj_on_of_nodup_map hids he' he (by rw [← hid', hvid])
    rw [hee, hA] at hu'
    exact hAB (hu'.trans huB)
  · unfold get_expense_by_id
    rcases h : sessionUid (some B) with _ | uid
    · rfl
    · have huB : uid = B := sessionUid_some h
      by_cases hf : fail
      · simp [hf]
      · have hnone : db.expenses.find?
            (fun x => x.id == e.id && x.userId == uid) = none := by
          rw [List.find?_eq_none]
          intro x hx hc
          simp only [Bool.and_eq_true, beq_iff_eq] at hc
          have hxid : x.id = e.id := hc.1
          have hxu : x.userId = uid := hc.2
          have hxe : x = e := List.inj_on_of_nodup_map hids hx he hxid
          rw [hxe] at hxu
          have hABeq : A = B := by rw [← hA, hxu, huB]
          exact hAB hABeq
        simp [hf, hnone]
  · intro v hv hvid
    rcases mem_get_expenses_by_date_range hv with ⟨uid, e', hsess, he', hu', hid'⟩
    have huB : uid = B := sessionUid_some hsess
    have hee : e' = e :=
      List.inj_on_of_nodup_map hids he' he (by rw [← hid', hvid])
    rw [hee, hA] at hu'
    exact hAB (hu'.trans huB)

theorem c1_user_scoping_witness :
    (∀ v ∈ get_all_expenses id false (some 2) none dbC1, v.id ≠ 1) ∧
    get_expense_by_id id false (some 2) 1 dbC1 = none ∧
    (∀ v ∈ get_expenses_by_date_range id false (some 2) 0 20 dbC1, v.id ≠ 1) := by
  have h := c1_user_scoping id false none 0 20 1 2 dbC1
    ⟨1, 1, "Lunch", some 1, 5, "", 10⟩ (by simp [dbC1]) rfl (by decide)
    (by simp [dbC1])
  exact h

/-- C4: an update or delete whose id does not match an expense owned by the
session user matches zero rows, leaves the table unchanged, and reports
failure (False) to the caller. -/
theorem c4_update_delete_not_owned (sess : Option Nat) (uid eid : Nat)
    (title : String) (amount : ℚ) (cid : Option Nat) (descr : String)
    (date : Nat) (db : DB) (hs : sessionUid sess = some uid)
    (h : ∀ e ∈ db.expenses, ¬(e.id = eid ∧ e.userId = uid)) :
    update_expense false sess eid title amount cid descr date db = (false, db) ∧
    delete_expense false sess eid db = (false, db) := by
  have hcond : ∀ e ∈ db.expenses, (e.id == eid && e.userId == uid) = false := by
    intro e hee
    have := h e hee
    simp only [Bool.and_eq_true, beq_iff_eq] at *
    by_cases h1 : e.id = eid
    · by_cases h2 : e.userId = uid
      · exact absurd ⟨h1, h2⟩ this
      · simp [h2]
    · simp [h1]
  constructor
  · unfold update_expense
    rw [hs]
    simp only [if_false, Bool.false_eq_true]
    have hupd : ∀ e ∈ db.expenses,
        (if e.id == eid && e.userId == uid then
          { e with title := title, amount := decRound2 amount,
                   categoryId := cid, descr := descr,
                   expenseDate := date } else e) = e := by
      intro e hee
      rw [hcond e hee]
      simp
    have hmap : db.expenses.map (fun e =>
        if e.id == eid && e.userId == uid then
          { e with title := title, amount := decRound2 amount,
                   categoryId := cid, descr := descr,
                   expenseDate := date } else e) = db.expenses := by
      have := List.map_congr_left (g := id) hupd
      simpa using this
    have hfilter : db.expenses.filter (fun e =>
        (if e.id == eid && e.userId == uid then
          { e with title := title, amount := decRound2 amount,
                   categoryId := cid, descr := descr,
                   expenseDate := date } else e) != e) = [] := by
      rw [List.filter_eq_nil_iff]
      intro e hee
      rw [hupd e hee]
      simp
    rw [hfilter, hmap]
    simp
  · unfold delete_expense
    rw [hs]
    simp only [if_false, Bool.false_eq_true]
    have hfilter : db.expenses.filter
        (fun e => !(e.id == eid && e.userId == uid)) = db.expenses := by
      rw [List.filter_eq_self]
      intro e hee
      rw [hcond e hee]
      rfl
    rw [hfilter]
    simp

theorem c4_update_delete_not_owned_witness :
    update_expense false (some 2) 1 "X" 9 none "" 12 dbC1 = (false, dbC1) ∧
    delete_expense false (some 2) 1 dbC1 = (false, dbC1) := by
  have h := c4_update_delete_not_owned (some 2) 2 1 "X" 9 none "" 12 dbC1
    rfl (by decide)
  exact h

/-- C8: in every data-access operation the connection trace is balanced:
whatever the outcome of get_connection, the session check and the
statements in the body, every acquired connection is released by the
finally clause. -/
theorem c8_connection_release :
    ∀ cached probeOk probeFails userOk connectOk bodyFails : Bool,
      ((singleBlockTrace connectOk bodyFails).count ConnEvent.acquire =
        (singleBlockTrace connectOk bodyFails).count ConnEvent.release) ∧
      ((structProbeTrace cached probeOk probeFails).count ConnEvent.acquire =
        (structProbeTrace cached probeOk probeFails).count ConnEvent.release) ∧
      ((expenseOpTrace cached probeOk probeFails userOk connectOk bodyFails).count
          ConnEvent.acquire =
        (expenseOpTrace cached probeOk probeFails userOk connectOk bodyFails).count
          ConnEvent.release) ∧
      ((userGuardedTrace userOk connectOk bodyFails).count ConnEvent.acquire =
        (userGuardedTrace userOk connectOk bodyFails).count ConnEvent.release) := by
  decide

/-- C9: get_total_expense tests `if start_date and end_date`, so when
exactly one bound is missing the date filter is dropped entirely and the
all-time total of the session user is returned, not an error and not a
half-open range. -/
theorem c9_half_range_ignored (fl : ℚ → ℚ) (fail : Bool) (sess : Option Nat)
    (db : DB) (sd ed : Option Nat) (h : sd = none ∨ ed = none) :
    get_total_expense fl fail sess sd ed db =
      get_total_expense fl fail sess none none db := by
  rcases h with h | h
  · subst h
    rfl
  · subst h
    cases sd <;> rfl

theorem c9_half_range_ignored_witness :
    get_total_expense id false (some 1) (some 5) none dbC1 =
      get_total_expense id false (some 1) none none dbC1 :=
  c9_half_range_ignored id false (some 1) dbC1 (some 5) none (Or.inr rfl)

/-- C10: with no authenticated user in the session every ExpenseModel
operation short-circuits on the `if not current_user_id` guard: the reads
return None or the empty list, the writes return None or False and leave
the database untouched, and the total is 0.0. -/
theorem c10_no_user_neutral (fl : ℚ → ℚ) (fail : Bool) (limit : Option Nat)
    (title descr : String) (amount : ℚ) (cid : Option Nat)
    (date eid sd0 ed0 : Nat) (sd ed : Option Nat) (db : DB) :
    add_expense fail none title amount cid descr date db = (none, db) ∧
    get_all_expenses fl fail none limit db = [] ∧
    get_expense_by_id fl fail none eid db = none ∧
    get_expenses_by_date_range fl fail none sd0 ed0 db = [] ∧
    get_expenses_by_category fl fail none db = [] ∧
    update_expense fail none eid title amount cid descr date db = (false, db) ∧
    delete_expense fail none eid db = (false, db) ∧
    get_total_expense fl fail none sd ed db = 0 :=
  ⟨rfl, rfl, rfl, rfl, rfl, rfl, rfl, rfl⟩

/-- C2: amounts survive the add/read round trip exactly.  The route layer
turns the submitted decimal k/100 into a binary double (any conversion fl
accurate to better than half a cent on the DECIMAL(10,2) range), add_expense
persists it in the DECIMAL(10,2) column, which holds the exact fixed-point
decimal k/100 again, and get_expense_by_id returns exactly the same double
the caller passed in: no drift is introduced by the round trip. -/
theorem c2_decimal_roundtrip (fl : ℚ → ℚ)
    (hfl : ∀ x : ℚ, |x| ≤ 100000000 → |fl x - x| < 1/200)
    (k : ℤ) (hk : |k| ≤ 9999999999)
    (sess : Option Nat) (uid : Nat) (hs : sessionUid sess = some uid)
    (db : DB) (hfresh : ∀ e ∈ db.expenses, e.id ≠ db.nextExpenseId)
    (title descr : String) (cid : Option Nat) (date : Nat) :
    ∃ db', add_expense false sess title (fl ((k : ℚ) / 100)) cid descr date db
        = (some db.nextExpenseId, db') ∧
      (∃ row, row ∈ db'.expenses ∧ row.id = db.nextExpenseId ∧
        row.amount = (k : ℚ) / 100) ∧
      (∃ v, get_expense_by_id fl false sess db.nextExpenseId db' = some v ∧
        v.amount = fl ((k : ℚ) / 100)) := by
  have hkq : |(k : ℚ) / 100| ≤ 100000000 := by
    rw [abs_div]
    have h100 : |(100 : ℚ)| = 100 := by norm_num
    rw [h100, div_le_iff₀ (by norm_num : (0:ℚ) < 100)]
    have hcast : |(k : ℚ)| = ((|k| : ℤ) : ℚ) := by
      rw [Int.cast_abs]
    rw [hcast]
    have : ((|k| : ℤ) : ℚ) ≤ ((9999999999 : ℤ) : ℚ) := by
      exact_mod_cast hk
    calc ((|k| : ℤ) : ℚ) ≤ ((9999999999 : ℤ) : ℚ) := this
      _ ≤ 100000000 * 100 := by norm_num
  have hround : decRound2 (fl ((k : ℚ) / 100)) = (k : ℚ) / 100 :=
    decRound2_exact k _ (hfl _ hkq)
  set a := fl ((k : ℚ) / 100) with ha
  set eid := db.nextExpenseId with heid
  set row : ExpenseRow := ⟨eid, uid, title, cid, decRound2 a, descr, date⟩
    with hrow
  set db' : DB :=
    { db with expenses := db.expenses ++ [row], nextExpenseId := eid + 1 }
    with hdb'
  refine ⟨db', ?_, ⟨row, ?_, rfl, ?_⟩, ?_⟩
  · unfold add_expense
    rw [hs]
    rfl
  · simp [hdb']
  · rw [hrow]
    exact hround
  · refine ⟨flView fl (byIdView db' row), ?_, ?_⟩
    · unfold get_expense_by_id
      rw [hs]
      simp only [Bool.false_eq_true, if_false]
      have hpre : ∀ e ∈ db.expenses,
          (e.id == eid && e.userId == uid) = false := by
        intro e hee
        have := hfresh e hee
        simp [this]
      have happ := find?_append_left_none
        (fun e => e.id == eid && e.userId == uid) db.expenses [row] hpre
      have hfind : List.find? (fun e => e.id == eid && e.userId == uid)
          db'.expenses = some row := by
        rw [hdb']
        simp only
        rw [happ]
        simp [hrow]
      rw [hfind]
      rfl
    · show fl row.amount = fl ((k : ℚ) / 100)
      rw [hrow]
      simp only
      rw [hround]

theorem c2_decimal_roundtrip_witness :
    ∃ db', add_expense false (some 1) "Lunch" (id ((1250 : ℤ) : ℚ) / 100) none
        "" 7 dbC2 = (some dbC2.nextExpenseId, db') ∧
      (∃ row, row ∈ db'.expenses ∧ row.id = dbC2.nextExpenseId ∧
        row.amount = ((1250 : ℤ) : ℚ) / 100) ∧
      (∃ v, get_expense_by_id id false (some 1) dbC2.nextExpenseId db' = some v ∧
        v.amount = id (((1250 : ℤ) : ℚ) / 100)) := by
  have h := c2_decimal_roundtrip id
    (fun x hx => by simp)
    1250 (by decide) (some 1) 1 rfl dbC2 (by simp [dbC2]) "Lunch" "" none 7
  simpa using h

/-- C5: registering an email that already exists raises before any INSERT,
so the call reports the duplicate and the users table (including the
existing row) is byte-for-byte unchanged; any row the call does add stores
the werkzeug salted hash of the password, not the plaintext, and the hash
genuinely depends on the salt. -/
theorem c5_register_duplicate_and_hash (salt : Nat)
    (name email password : String) (db : DB) :
    (∀ u0 ∈ db.users, u0.email = email →
      register_user false salt name email password db =
        (Except.error ("User with email " ++ email ++ " already exists!"), db)) ∧
    (∀ u ∈ (register_user false salt name email password db).2.users,
      u ∈ db.users ∨ u.password = generate_password_hash salt password) ∧
    (∀ s₁ s₂ : Nat, s₁ ≠ s₂ →
      generate_password_hash s₁ password ≠ generate_password_hash s₂ password) := by
  refine ⟨?_, ?_, fun s₁ s₂ h => generate_password_hash_salted s₁ s₂ password h⟩
  · intro u0 hu0 he
    unfold register_user
    have hany : db.users.any (fun u => u.email == email) = true :=
      List.any_eq_true.mpr ⟨u0, hu0, by simp [he]⟩
    simp [hany]
  · intro u hu
    unfold register_user at hu
    by_cases hany : db.users.any (fun u => u.email == email)
    · simp [hany] at hu
      exact Or.inl hu
    · simp only [Bool.false_eq_true, if_false, hany] at hu
      simp only [List.mem_append, List.mem_singleton] at hu
      rcases hu with hu | hu
      · exact Or.inl hu
      · right
        rw [hu]

theorem c5_register_duplicate_and_hash_witness :
    register_user false 7 "Bob" "a@b.com" "pw123456" dbC5 =
      (Except.error "User with email a@b.com already exists!", dbC5) ∧
    ((⟨2, "Carol", "c@d.com", generate_password_hash 9 "secret12"⟩ : UserRow)
        ∈ dbC5.users ∨
      (⟨2, "Carol", "c@d.com", generate_password_hash 9 "secret12"⟩ :
        UserRow).password = generate_password_hash 9 "secret12") ∧
    generate_password_hash 1 "pw123456" ≠ generate_password_hash 2 "pw123456" := by
  refine ⟨?_, ?_, ?_⟩
  · exact (c5_register_duplicate_and_hash 7 "Bob" "a@b.com" "pw123456" dbC5).1
      ⟨1, "Alice", "a@b.com", generate_password_hash 3 "alicepw1"⟩
      (by simp [dbC5]) rfl
  · exact (c5_register_duplicate_and_hash 9 "Carol" "c@d.com" "secret12" dbC5).2.1
      ⟨2, "Carol", "c@d.com", generate_password_hash 9 "secret12"⟩
      (by simp [register_user, dbC5])
  · exact (c5_register_duplicate_and_hash 1 "N" "e@f.com" "pw123456" dbC5).2.2
      1 2 (by decide)

/-- C6: login looks the user up by email and checks the password against
the stored hash.  An unknown email and a wrong password produce literally
the same response: the login page re-rendered with the one generic flash
('Invalid email or password!') and the session unchanged, so the caller
cannot tell which field was wrong; the correct password redirects to the
dashboard with the session identifying the user. -/
theorem c6_login_generic_failure (db : DB) (sess : SessionData)
    (hsess : sess.userId = none)
    (e₁ p₁ : String) (h₁ : ∀ u ∈ db.users, u.email ≠ e₁)
    (h₁e : e₁ ≠ "") (h₁p : p₁ ≠ "")
    (e₂ p₂ : String) (h₂e : e₂ ≠ "") (h₂p : p₂ ≠ "")
    (u : UserRow) (h₂ : db.users.find? (fun x => x.email == e₂) = some u)
    (salt : Nat) (realPw : String) (hrp : realPw ≠ "")
    (hupw : u.password = generate_password_hash salt realPw)
    (hwrong : p₂ ≠ realPw) :
    loginRoute false db sess e₁ p₁ = loginRoute false db sess e₂ p₂ ∧
    loginRoute false db sess e₁ p₁ =
      LoginResult.loginPage ("Invalid email or password!", "danger") sess ∧
    loginRoute false db sess e₂ realPw =
      LoginResult.redirectIndex
        ("Welcome back, " ++ displayName u ++ "!", "success")
        ⟨some u.id, some (displayName u), some u.email⟩ := by
  have hno₁ : db.users.find? (fun x => x.email == e₁) = none := by
    rw [List.find?_eq_none]
    intro x hx hc
    exact h₁ x hx (by simpa using hc)
  have hv₁ : validate_login false e₁ p₁ db = none := by
    unfold validate_login get_user_by_email
    simp [hno₁]
  have hv₂ : validate_login false e₂ p₂ db = none := by
    unfold validate_login get_user_by_email
    simp only [Bool.false_eq_true, if_false, h₂]
    rw [hupw, check_password_hash_wrong salt realPw p₂ hwrong]
    rfl
  have hv₃ : validate_login false e₂ realPw db = some u := by
    unfold validate_login get_user_by_email
    simp only [Bool.false_eq_true, if_false, h₂]
    rw [hupw, check_password_hash_correct salt realPw]
    rfl
  have hfail₁ : loginRoute false db sess e₁ p₁ =
      LoginResult.loginPage ("Invalid email or password!", "danger") sess := by
    unfold loginRoute
    rw [hsess]
    simp [h₁e, h₁p, hv₁]
  have hfail₂ : loginRoute false db sess e₂ p₂ =
      LoginResult.loginPage ("Invalid email or password!", "danger") sess := by
    unfold loginRoute
    rw [hsess]
    simp [h₂e, h₂p, hv₂]
  refine ⟨hfail₁.trans hfail₂.symm, hfail₁, ?_⟩
  unfold loginRoute
  rw [hsess]
  simp [h₂e, hrp, hv₃]

theorem c6_login_generic_failure_witness :
    loginRoute false dbC6 emptySession "x@y.com" "pw" =
      loginRoute false dbC6 emptySession "a@b.com" "wrongpw" ∧
    loginRoute false dbC6 emptySession "x@y.com" "pw" =
      LoginResult.loginPage ("Invalid email or password!", "danger")
        emptySession ∧
    loginRoute false dbC6 emptySession "a@b.com" "hunter22" =
      LoginResult.redirectIndex ("Welcome back, alice!", "success")
        ⟨some 1, some "alice", some "a@b.com"⟩ := by
  have h := c6_login_generic_failure dbC6 emptySession rfl
    "x@y.com" "pw" (by decide) (by decide) (by decide)
    "a@b.com" "wrongpw" (by decide) (by decide)
    ⟨1, "alice", "a@b.com", generate_password_hash 5 "hunter22"⟩
    (by rfl) 5 "hunter22" (by decide) rfl (by decide)
  simpa [displayName] using h

/-- C7 counterexample: the claim says every data-layer failure is surfaced
to the caller as a flash message or a JSON error value.  But when every
query raises (failure flag set), /api/stats still answers with the
success-shaped payload — user 1's totals silently become 0 and the category
list empty — with no error constructor, although without the failure the
same request reports total 5: the read-path failure is swallowed, not
surfaced. -/
theorem c7_counterexample :
    apiStatsRoute id true 1 10 20 dbC7 = ApiResult.ok ⟨1, 0, 0, []⟩ ∧
    apiStatsRoute id false 1 10 20 dbC7 =
      ApiResult.ok ⟨1, 5, 5, [⟨"Food", 5, 1⟩]⟩ := by
  constructor
  · rfl
  · norm_num [apiStatsRoute, get_total_expense, get_expenses_by_category,
      dbC7, sessionUid, sortByDesc, insertDesc]

/-- C7 (amended): every data-access failure is caught inside the operation
(or, for register_user, re-raised and caught by its route), never escaping
as an uncaught exception: under a raised database error each operation
returns its neutral fallback with the stored state unchanged, and the write
routes surface the failure as a flash message ('Error: ...' for register,
'Error adding expense. Please try again.' for add).  Read-path failures are
swallowed into empty results rather than surfaced. -/
theorem c7_amended (fl : ℚ → ℚ) (salt : Nat) (sess : Option Nat)
    (sessR : SessionData) (hR : sessR.userId = none)
    (name email password : String) (hn : name ≠ "") (he : email ≠ "")
    (hp : password ≠ "") (hlen : ¬ password.length < 6)
    (title descr : String) (ht : title ≠ "") (amount : ℚ) (cid : Option Nat)
    (date eid sd0 ed0 : Nat) (limit sd ed : Option Nat) (db : DB) :
    register_user true salt name email password db =
      (Except.error "db error", db) ∧
    add_expense true sess title amount cid descr date db = (none, db) ∧
    get_all_expenses fl true sess limit db = [] ∧
    get_expense_by_id fl true sess eid db = none ∧
    get_expenses_by_date_range fl true sess sd0 ed0 db = [] ∧
    get_total_expense fl true sess sd ed db = 0 ∧
    get_expenses_by_category fl true sess db = [] ∧
    update_expense true sess eid title amount cid descr date db = (false, db) ∧
    delete_expense true sess eid db = (false, db) ∧
    get_all_categories true db = [] ∧
    add_category true name descr db = (none, db) ∧
    get_user_by_email true email db = none ∧
    registerRoute true salt sessR name email password db =
      (RegisterResult.registerPage (some ("Error: db error", "danger")), db) ∧
    addExpenseRoute true sess title amount cid descr date db =
      (AddExpenseResult.addPage
        (some ("Error adding expense. Please try again.", "danger")), db) := by
  have hreg : register_user true salt name email password db =
      (Except.error "db error", db) := rfl
  have hadd : add_expense true sess title amount cid descr date db =
      (none, db) := by
    cases hsu : sessionUid sess <;> simp [add_expense, hsu]
  refine ⟨hreg, hadd, ?_, ?_, ?_, ?_, ?_, ?_, ?_, rfl, rfl, rfl, ?_, ?_⟩
  · cases hsu : sessionUid sess <;> simp [get_all_expenses, hsu]
  · cases hsu : sessionUid sess <;> simp [get_expense_by_id, hsu]
  · cases hsu : sessionUid sess <;> simp [get_expenses_by_date_range, hsu]
  · cases hsu : sessionUid sess <;> simp [get_total_expense, hsu]
  · cases hsu : sessionUid sess <;> simp [get_expenses_by_category, hsu]
  · cases hsu : sessionUid sess <;> simp [update_expense, hsu]
  · cases hsu : sessionUid sess <;> simp [delete_expense, hsu]
  · unfold registerRoute
    rw [hR]
    simp [hn, he, hp, hlen, hreg]
  · unfold addExpenseRoute
    simp [ht, hadd]

theorem c7_amended_witness :
    register_user true 0 "Bob" "b@c.de" "pw123456" dbC7 =
      (Except.error "db error", dbC7) ∧
    add_expense true (some 1) "Tea" 5 none "" 9 dbC7 = (none, dbC7) ∧
    get_all_expenses id true (some 1) none dbC7 = [] ∧
    get_expense_by_id id true (some 1) 1 dbC7 = none ∧
    get_expenses_by_date_range id true (some 1) 0 20 dbC7 = [] ∧
    get_total_expense id true (some 1) none none dbC7 = 0 ∧
    get_expenses_by_category id true (some 1) dbC7 = [] ∧
    update_expense true (some 1) 1 "Tea" 5 none "" 9 dbC7 = (false, dbC7) ∧
    delete_expense true (some 1) 1 dbC7 = (false, dbC7) ∧
    get_all_categories true dbC7 = [] ∧
    add_category true "Bob" "" dbC7 = (none, dbC7) ∧
    get_user_by_email true "b@c.de" dbC7 = none ∧
    registerRoute true 0 emptySession "Bob" "b@c.de" "pw123456" dbC7 =
      (RegisterResult.registerPage (some ("Error: db error", "danger")), dbC7) ∧
    addExpenseRoute true (some 1) "Tea" 5 none "" 9 dbC7 =
      (AddExpenseResult.addPage
        (some ("Error adding expense. Please try again.", "danger")), dbC7) := by
  have h := c7_amended id 0 (some 1) emptySession rfl
    "Bob" "b@c.de" "pw123456" (by decide) (by decide) (by decide) (by decide)
    "Tea" "" (by decide) 5 none 9 1 0 20 none none none dbC7
  exact h

theorem sum_map_add_distrib {α : Type} (f g : α → ℚ) (l : List α) :
    (l.map (fun a => f a + g a)).sum = (l.map f).sum + (l.map g).sum := by
  induction l with
  | nil => simp
  | cons a as ih =>
    simp only [List.map_cons, List.sum_cons, ih]
    ring

theorem sum_map_filter_split {α : Type} (p : α → Bool) (f : α → ℚ) (l : List α) :
    ((l.filter p).map f).sum + ((l.filter (fun a => !p a)).map f).sum
      = (l.map f).sum := by
  induction l with
  | nil => simp
  | cons a as ih =>
    cases h : p a
    · simp only [List.filter_cons, h, Bool.false_eq_true, if_false,
        Bool.not_false, if_true, List.map_cons, List.sum_cons]
      rw [← ih]
      ring
    · simp only [List.filter_cons, h, if_true, Bool.not_true,
        Bool.false_eq_true, if_false, List.map_cons, List.sum_cons]
      rw [← ih]
      ring

/-- Summing an indicator over a duplicate-free category list hits exactly
one category. -/
theorem sum_map_single_hit (a : ℚ) (cid : Nat) :
    ∀ cats : List CategoryRow, (cats.map CategoryRow.id).Nodup →
      ∀ c0, c0 ∈ cats → c0.id = cid →
      (cats.map (fun c => if cid = c.id then a else 0)).sum = a := by
  intro cats
  induction cats with
  | nil =>
    intro _ c0 hc0 _
    exact absurd hc0 (List.not_mem_nil c0)
  | cons c cs ih =>
    intro hn c0 hc0 hid
    simp only [List.map_cons, List.nodup_cons] at hn
    simp only [List.map_cons, List.sum_cons]
    rcases List.mem_cons.mp hc0 with h | h
    · have hcid : cid = c.id := by rw [← hid, h]
      rw [if_pos hcid]
      have hzero : (cs.map (fun x => if cid = x.id then a else 0)).sum = 0 := by
        apply List.sum_eq_zero
        intro q hq
        rcases List.mem_map.mp hq with ⟨x, hx, hxq⟩
        rw [← hxq, if_neg]
        intro hcc
        exact hn.1 (List.mem_map.mpr ⟨x, hx, hcc.symm.trans hcid⟩)
      rw [hzero]
      ring
    · have hne : ¬ (cid = c.id) := by
        intro hcc
        exact hn.1 (List.mem_map.mpr ⟨c0, h, hid.trans hcc⟩)
      rw [if_neg hne, ih hn.2 c0 h hid]
      ring

/-- Grouping a user's expenses by category and summing the groups gives the
user's total, provided category ids are duplicate-free and every expense of
the user points at an existing category. -/
theorem sum_over_categories (uid : Nat) (cats : List CategoryRow)
    (hn : (cats.map CategoryRow.id).Nodup) :
    ∀ exps : List ExpenseRow,
      (∀ e ∈ exps, e.userId = uid → ∃ c ∈ cats, e.categoryId = some c.id) →
      (cats.map (fun c =>
        ((exps.filter (fun e =>
            e.categoryId == some c.id && e.userId == uid)).map
          (fun e => e.amount)).sum)).sum =
      ((exps.filter (fun e => e.userId == uid)).map
        (fun e => e.amount)).sum := by
  intro exps
  induction exps with
  | nil =>
    intro _
    simp
  | cons e es ih =>
    intro hcov
    have ihh := ih (fun x hx hu => hcov x (List.mem_cons_of_mem e hx) hu)
    by_cases hu : e.userId = uid
    · obtain ⟨c0, hc0, hcat⟩ := hcov e (List.mem_cons_self e es) hu
      have hstep : ∀ c ∈ cats,
          (((e :: es).filter (fun x =>
              x.categoryId == some c.id && x.userId == uid)).map
            (fun x => x.amount)).sum
          = (if c0.id = c.id then e.amount else 0) +
            ((es.filter (fun x =>
                x.categoryId == some c.id && x.userId == uid)).map
              (fun x => x.amount)).sum := by
        intro c hc
        rw [List.filter_cons]
        by_cases hcc : c0.id = c.id
        · have hcond : (e.categoryId == some c.id && e.userId == uid) = true := by
            rw [hcat, hu, hcc]
            simp
          simp only [hcond, if_true, List.map_cons, List.sum_cons, if_pos hcc]
        · have hcond : (e.categoryId == some c.id && e.userId == uid) = false := by
            rw [hcat, hu]
            simp [hcc]
          simp only [hcond, Bool.false_eq_true, if_false, if_neg hcc]
          ring
      rw [List.map_congr_left hstep, sum_map_add_distrib,
        sum_map_single_hit e.amount c0.id cats hn c0 hc0 rfl]
      rw [List.filter_cons]
      have hucond : (e.userId == uid) = true := by simp [hu]
      rw [hucond]
      simp only [if_true, List.map_cons, List.sum_cons]
      rw [ihh]
    · have hstep : ∀ c ∈ cats,
          (((e :: es).filter (fun x =>
              x.categoryId == some c.id && x.userId == uid)).map
            (fun x => x.amount)).sum
          = ((es.filter (fun x =>
              x.categoryId == some c.id && x.userId == uid)).map
            (fun x => x.amount)).sum := by
        intro c hc
        rw [List.filter_cons]
        have hcond : (e.categoryId == some c.id && e.userId == uid) = false := by
          simp [hu]
        rw [hcond]
        simp
      rw [List.map_congr_left hstep, ihh, List.filter_cons]
      have hucond : (e.userId == uid) = false := by simp [hu]
      rw [hucond]
      simp

/-- C3 counterexample: the claim quantifies over every date range, but
get_expenses_by_category takes no date parameters and always totals
all-time.  For user 1, whose single expense of 5 is dated day 10, the
per-category totals sum to 5 while get_total_expense over the range
20..30 is 0. -/
theorem c3_counterexample :
    ¬ (((get_expenses_by_category id false (some 1) dbC3).map
          (fun g => g.totalAmount)).sum =
        get_total_expense id false (some 1) (some 20) (some 30) dbC3) := by
  norm_num [get_expenses_by_category, get_total_expense, dbC3, sessionUid,
    sortByDesc, insertDesc]

/-- C3 (amended): the per-category totals of get_expenses_by_category are
all-time totals (the query takes no date range), and their sum equals the
all-time overall total of get_total_expense — called with no date range —
for the same user, provided category ids are duplicate-free (they are a
primary key), every expense of the user references an existing category
(NULL or dangling category_id rows are invisible to the LEFT JOIN grouping)
and amounts are nonnegative (the HAVING total_amount > 0 clause drops
negative-total groups). -/
theorem c3_amended (uid : Nat) (huid : uid ≠ 0) (db : DB)
    (hnodup : (db.categories.map CategoryRow.id).Nodup)
    (hcover : ∀ e ∈ db.expenses, e.userId = uid →
      ∃ c ∈ db.categories, e.categoryId = some c.id)
    (hpos : ∀ e ∈ db.expenses, 0 ≤ e.amount) :
    ((get_expenses_by_category id false (some uid) db).map
        (fun g => g.totalAmount)).sum =
      get_total_expense id false (some uid) none none db := by
  have hsu := sessionUid_some_of_ne huid
  unfold get_expenses_by_category get_total_expense
  rw [hsu]
  simp only [Bool.false_eq_true, if_false, id]
  have hmapid : ∀ l : List CategoryTotal,
      l.map (fun g => { g with totalAmount := g.totalAmount }) = l := by
    intro l
    induction l with
    | nil => rfl
    | cons g gs ihg => simp [ihg]
  rw [hmapid]
  have hperm : ((sortByDesc (fun g => g.totalAmount)
      ((db.categories.map (fun c =>
        CategoryTotal.mk c.name
          (((db.expenses.filter (fun e =>
              e.categoryId == some c.id && e.userId == uid)).map
            (fun e => e.amount)).sum)
          ((db.expenses.filter (fun e =>
              e.categoryId == some c.id && e.userId == uid)).length))).filter
        (fun g => decide (0 < g.totalAmount)))).map
      (fun g => g.totalAmount)).sum =
      (((db.categories.map (fun c =>
        CategoryTotal.mk c.name
          (((db.expenses.filter (fun e =>
              e.categoryId == some c.id && e.userId == uid)).map
            (fun e => e.amount)).sum)
          ((db.expenses.filter (fun e =>
              e.categoryId == some c.id && e.userId == uid)).length))).filter
        (fun g => decide (0 < g.totalAmount))).map
      (fun g => g.totalAmount)).sum :=
    ((sortByDesc_perm _ _).map _).sum_eq
  rw [hperm]
  have hgroupnn : ∀ g ∈ db.categories.map (fun c =>
      CategoryTotal.mk c.name
        (((db.expenses.filter (fun e =>
            e.categoryId == some c.id && e.userId == uid)).map
          (fun e => e.amount)).sum)
        ((db.expenses.filter (fun e =>
            e.categoryId == some c.id && e.userId == uid)).length)),
      0 ≤ g.totalAmount := by
    intro g hg
    rcases List.mem_map.mp hg with ⟨c, hcmem, hcg⟩
    rw [← hcg]
    apply List.sum_nonneg
    intro q hq
    rcases List.mem_map.mp hq with ⟨x, hx, hxq⟩
    rw [← hxq]
    exact hpos x (List.mem_filter.mp hx).1
  have hhaving : (((db.categories.map (fun c =>
      CategoryTotal.mk c.name
        (((db.expenses.filter (fun e =>
            e.categoryId == some c.id && e.userId == uid)).map
          (fun e => e.amount)).sum)
        ((db.expenses.filter (fun e =>
            e.categoryId == some c.id && e.userId == uid)).length))).filter
      (fun g => decide (0 < g.totalAmount))).map
    (fun g => g.totalAmount)).sum =
      ((db.categories.map (fun c =>
      CategoryTotal.mk c.name
        (((db.expenses.filter (fun e =>
            e.categoryId == some c.id && e.userId == uid)).map
          (fun e => e.amount)).sum)
        ((db.expenses.filter (fun e =>
            e.categoryId == some c.id && e.userId == uid)).length))).map
    (fun g => g.totalAmount)).sum := by
    have hsplit := sum_map_filter_split
      (fun g : CategoryTotal => decide (0 < g.totalAmount))
      (fun g : CategoryTotal => g.totalAmount)
      (db.categories.map (fun c =>
        CategoryTotal.mk c.name
          (((db.expenses.filter (fun e =>
              e.categoryId == some c.id && e.userId == uid)).map
            (fun e => e.amount)).sum)
          ((db.expenses.filter (fun e =>
              e.categoryId == some c.id && e.userId == uid)).length)))
    have hdrop : (((db.categories.map (fun c =>
        CategoryTotal.mk c.name
          (((db.expenses.filter (fun e =>
              e.categoryId == some c.id && e.userId == uid)).map
            (fun e => e.amount)).sum)
          ((db.expenses.filter (fun e =>
              e.categoryId == some c.id && e.userId == uid)).length))).filter
        (fun g => !decide (0 < g.totalAmount))).map
      (fun g => g.totalAmount)).sum = 0 := by
      apply List.sum_eq_zero
      intro q hq
      rcases List.mem_map.mp hq with ⟨g, hg, hgq⟩
      rcases List.mem_filter.mp hg with ⟨hgmem, hgcond⟩
      have h1 : ¬ (0 < g.totalAmount) := by
        simpa using hgcond
      have h2 : 0 ≤ g.totalAmount := hgroupnn g hgmem
      rw [← hgq]
      linarith
    linarith [hsplit, hdrop]
  rw [hhaving, List.map_map]
  have hcomp : ((fun g : CategoryTotal => g.totalAmount) ∘ (fun c =>
      CategoryTotal.mk c.name
        (((db.expenses.filter (fun e =>
            e.categoryId == some c.id && e.userId == uid)).map
          (fun e => e.amount)).sum)
        ((db.expenses.filter (fun e =>
            e.categoryId == some c.id && e.userId == uid)).length)))
      = (fun c : CategoryRow =>
        ((db.expenses.filter (fun e =>
            e.categoryId == some c.id && e.userId == uid)).map
          (fun e => e.amount)).sum) := rfl
  rw [hcomp, sum_over_categories uid db.categories hnodup db.expenses hcover]
  by_cases hz : ((db.expenses.filter (fun e => e.userId == uid)).map
      (fun e => e.amount)).sum = 0
  · rw [if_pos hz, hz]
  · rw [if_neg hz]

theorem c3_amended_witness :
    ((get_expenses_by_category id false (some 1) dbC3).map
        (fun g => g.totalAmount)).sum =
      get_total_expense id false (some 1) none none dbC3 :=
  c3_amended 1 (by decide) dbC3 (by decide) (by decide) (by decide)

end ExpenseTracker
